import Mathlib

/-!
Verification development for the solarbudget repository.

The embedding models the data-freshness, reconciliation and aggregation
engine of `app.py`, the upstream handlers of `api_handlers.py` and the
small key-value cache of `database.py`.

Modelling conventions:
* Instants are integers counting minutes; a calendar day is 1440 minutes,
  so `dateOf t = t / 1440` (Euclidean) is the calendar date (a day number)
  and `timeOfDay t = t % 1440` is the local wall-clock time in minutes.
* Floating point arithmetic is modelled over `ℚ`; a pandas `NaN` cell is
  modelled as `Option.none`.  Sums that skip `NaN` (pandas default
  `skipna=True`) sum the `Option.getD 0` of each cell.
* Fallible parsing returns `Option`; an uncaught Python exception is an
  `Except.error`.
-/

/-- Calendar date (day number) of an instant given in minutes. -/
def dateOf (t : Int) : Int := t / 1440

/-- Wall-clock time of day, in minutes, of an instant given in minutes. -/
def timeOfDay (t : Int) : Int := t % 1440

/-! ## database.py : the keyed JSON cache

`cache_data` does `INSERT OR REPLACE` of `(key, json, datetime.now())`;
`get_cached_data` returns the stored JSON iff the row exists and
`datetime.now() - timestamp < timedelta(hours=1)` (strict).  The cache
table is a partial map from keys to `(payload, storedAt)`. -/

/-- State of the `cache` table: each key holds at most one row. -/
def CacheTable : Type := Int → Option (Int × Int)

/-- Embedding of `cache_data` (database.py lines 15-21): `INSERT OR
REPLACE` stores the payload under the key with the current time,
replacing any previous row for that key. -/
def cache_data (c : CacheTable) (key payload now : Int) : CacheTable :=
  fun k => if k = key then some (payload, now) else c k

/-- Embedding of `get_cached_data` (database.py lines 23-32): return the
stored payload iff the row exists and was stored strictly less than 60
minutes (one hour) before `now`. -/
def get_cached_data (c : CacheTable) (key now : Int) : Option Int :=
  match c key with
  | some (payload, storedAt) => if now - storedAt < 60 then some payload else none
  | none => none

/-! ## app.py lines 639-641 and 734-739 : per-point valuation

`calculate_energy_value` sets
`value = pv_estimate * price / 1000 * 0.25`; where the aligned price is
missing the cell is `NaN` (modelled `none`; note `0 * NaN = NaN`).
`index` then computes
`value_ratio = value / pv_estimate.replace(0, nan)` and uses
`value_ratio.fillna(0)` as the multiplier for both percentile columns. -/

/-- Value cell of one merged point (app.py lines 639-641): with a present
price the cell is `pv * price / 1000 * 0.25`; with a missing price the
product with `NaN` is `NaN`. -/
def valueOf (pv : ℚ) (priceCell : Option ℚ) : Option ℚ :=
  priceCell.map (fun price => pv * price / 1000 * (1 / 4))

/-- Filled value ratio (app.py lines 734-739): the raw ratio
`value / pv.replace(0, nan)` is `NaN` when `pv = 0` or when the value
cell is `NaN`, and `fillna(0)` turns every `NaN` into `0`. -/
def valueRatioFilled (pv : ℚ) (valueCell : Option ℚ) : ℚ :=
  if pv = 0 then 0
  else
    match valueCell with
    | some v => v / pv
    | none => 0

/-- Percentile value column (app.py line 738): `pv_estimate10` times the
filled ratio.  Line 739 is the same with `pv_estimate90`. -/
def percentileValue (pvPct pv : ℚ) (valueCell : Option ℚ) : ℚ :=
  pvPct * valueRatioFilled pv valueCell

/-! ## Data model of the two series -/

/-- One solar forecast point (a row of the Solcast frame): `period_end`
timestamp plus the central and percentile production estimates. -/
structure ForecastPoint where
  ts : Int
  pv_estimate : ℚ
  pv_estimate10 : ℚ
  pv_estimate90 : ℚ
deriving DecidableEq, Repr

/-- One day-ahead price point: hour-aligned timestamp and a price in
currency per MWh. -/
structure PricePoint where
  ts : Int
  price : ℚ
deriving DecidableEq, Repr

/-- One row of the merged, valued frame returned by
`calculate_energy_value`: the forecast columns plus the `value` column,
whose cell may be `NaN` (`none`). -/
structure ValuedPoint where
  ts : Int
  pv_estimate : ℚ
  pv_estimate10 : ℚ
  pv_estimate90 : ℚ
  valueCell : Option ℚ
deriving DecidableEq, Repr

/-! ## app.py lines 634-641 : aligning prices onto the forecast grid

`prices_df.resample("15min").ffill()` produces a 15-minute index running
from the first price timestamp (rounded down to the grid) to the last
price timestamp; each slot carries the most recent price at or before
it, and slots before the first price stay `NaN`.  The pandas column
assignment then aligns this index with the forecast index: forecast
timestamps outside the resampled range read `NaN`. -/

/-- One step of the forward-fill scan: keep the latest price point seen
so far whose timestamp is at or before `t`. -/
def ffillStep (t : Int) (acc : Option PricePoint) (p : PricePoint) : Option PricePoint :=
  if p.ts ≤ t then
    match acc with
    | none => some p
    | some q => if q.ts ≤ p.ts then some p else some q
  else acc

/-- Most recent price at or before `t` (`ffill` semantics); `none` when
no price point lies at or before `t`. -/
def lastPriceAtOrBefore (prices : List PricePoint) (t : Int) : Option ℚ :=
  (prices.foldl (ffillStep t) none).map PricePoint.price

/-- Price cell the forecast row at `t` reads after
`resample("15min").ffill()` and index alignment: defined only on the
15-minute grid between the floor of the first price timestamp and the
last price timestamp, and `NaN` (`none`) for slots that precede every
price point. -/
def priceOnGrid (prices : List PricePoint) (t : Int) : Option ℚ :=
  match prices with
  | [] => none
  | p :: ps =>
    let tmin := (p :: ps).foldl (fun m q => min m q.ts) p.ts
    let tmax := (p :: ps).foldl (fun m q => max m q.ts) p.ts
    if 15 * (tmin / 15) ≤ t ∧ t ≤ tmax ∧ t % 15 = 0 then
      lastPriceAtOrBefore (p :: ps) t
    else none

/-- Valued row built from one forecast row (app.py lines 639-641). -/
def valuePointOf (prices : List PricePoint) (fp : ForecastPoint) : ValuedPoint :=
  ⟨fp.ts, fp.pv_estimate, fp.pv_estimate10, fp.pv_estimate90,
    valueOf fp.pv_estimate (priceOnGrid prices fp.ts)⟩

/-- Embedding of `calculate_energy_value`: every forecast row is kept
and receives a `value` cell. -/
def valuedSeries (forecast : List ForecastPoint) (prices : List PricePoint) :
    List ValuedPoint :=
  forecast.map (valuePointOf prices)

/-- Daily `value` total (app.py line 728,
`resample("D")["value"].sum()`): pandas sums with `skipna=True`, so a
`NaN` cell contributes `0`. -/
def dailyValueTotal (pts : List ValuedPoint) (d : Int) : ℚ :=
  ((pts.filter fun p => dateOf p.ts == d).map fun p => p.valueCell.getD 0).sum

/-! ## app.py lines 727-757 : daily totals and the produced/remaining split -/

/-- Sum of one numeric column over a frame. -/
def colSum (f : ValuedPoint → ℚ) (pts : List ValuedPoint) : ℚ :=
  (pts.map f).sum

/-- Rows of the merged frame falling on the given local calendar date
(app.py line 744). -/
def todayData (pts : List ValuedPoint) (today : Int) : List ValuedPoint :=
  pts.filter fun p => dateOf p.ts == today

/-- Rows of today's data at or before `now` (app.py line 748). -/
def producedData (pts : List ValuedPoint) (today now : Int) : List ValuedPoint :=
  (todayData pts today).filter fun p => decide (p.ts ≤ now)

/-- Rows of today's data strictly after `now` (app.py line 754). -/
def remainingData (pts : List ValuedPoint) (today now : Int) : List ValuedPoint :=
  (todayData pts today).filter fun p => decide (now < p.ts)

/-- Produced energy for one estimate column (app.py lines 749-751):
column sum over the produced rows times `0.25`. -/
def producedEnergyOf (f : ValuedPoint → ℚ) (pts : List ValuedPoint)
    (today now : Int) : ℚ :=
  colSum f (producedData pts today now) * (1 / 4)

/-- Remaining energy for one estimate column (app.py lines 755-757). -/
def remainingEnergyOf (f : ValuedPoint → ℚ) (pts : List ValuedPoint)
    (today now : Int) : ℚ :=
  colSum f (remainingData pts today now) * (1 / 4)

/-- Daily energy total for one estimate column (app.py lines 727,
731-732): `resample("D")` groups by local calendar date. -/
def dailyEnergyOf (f : ValuedPoint → ℚ) (pts : List ValuedPoint) (d : Int) : ℚ :=
  colSum f (todayData pts d) * (1 / 4)

/-! ## app.py lines 442-606 : the price reconciler `get_pse_prices`

A cached snapshot row holds `fetchedAt` (the `timestamp` column) and a
list of raw items.  Each raw item's `datetime` string is either ISO
(what this code itself persists), the old hyphen-joined range format, or
unparseable; `RawDT` models the three cases.  The upstream response for
one day is either a network error (`requests` raises), a malformed body
(not a dict with a `value` key), or a list of records. -/

/-- Shape of the `datetime` string of one cached price item. -/
inductive RawDT where
  | iso (t : Int)
  | old (d : Int) (tod : Int)
  | bad
deriving DecidableEq, Repr

/-- One raw item of a cached PSE snapshot payload. -/
structure RawPriceItem where
  dt : RawDT
  price : ℚ
deriving DecidableEq, Repr

/-- One row of the `pse_data` table. -/
structure PseSnap where
  fetchedAt : Int
  data : List RawPriceItem
deriving DecidableEq, Repr

/-- Parse of one cached item (app.py lines 488-509): ISO strings parse
directly, old-format range strings keep only the start time, anything
else is logged and dropped. -/
def parseCachedItem (it : RawPriceItem) : Option PricePoint :=
  match it.dt with
  | .iso t => some ⟨t, it.price⟩
  | .old d tod => some ⟨d * 1440 + tod, it.price⟩
  | .bad => none

/-- True iff the cached item's `datetime` string is ISO, i.e.
`datetime.fromisoformat` would succeed on it. -/
def isIsoItem (it : RawPriceItem) : Bool :=
  match it.dt with
  | .iso _ => true
  | _ => false

/-- Calendar date `datetime.fromisoformat(...).date()` yields for an ISO
item; `none` marks the items on which the call would raise. -/
def isoDateOf (it : RawPriceItem) : Option Int :=
  match it.dt with
  | .iso t => some (dateOf t)
  | _ => none

/-- One record of an upstream PSE response body: the legacy shape keys
`doba` (a date) and `udtczas_oreb` (a start time, optionally a range
whose end is ignored by the parser) with `rce_pln`; the current shape
keys `business_date` and `dtime`; `junk` covers records that raise
`KeyError` or `ValueError` for any other reason. -/
inductive PseApiItem where
  | legacy (doba : Int) (orebStart : Int) (orebEnd : Option Int) (rce : ℚ)
  | currentShape (business_date : Int) (dtime : Int) (rce : ℚ)
  | junk
deriving DecidableEq, Repr

/-- Parse of one upstream record (app.py lines 542-555 and 568-585):
`item["doba"]` and `item["udtczas_oreb"]` are combined by
`parse_pse_datetime`, which splits a time range on " - " and keeps only
the start.  A record carrying only `business_date`/`dtime` raises
`KeyError` on `item["doba"]` and is skipped. -/
def parsePseApiItem : PseApiItem → Option PricePoint
  | .legacy doba orebStart _ rce => some ⟨doba * 1440 + orebStart, rce⟩
  | .currentShape _ _ _ => none
  | .junk => none

/-- Outcome of one upstream day fetch. -/
inductive FetchOutcome where
  | netError
  | malformedResp
  | ok (items : List PseApiItem)
deriving DecidableEq, Repr

/-- Serialization of a parsed point back into a stored item
(`dt.isoformat()` plus the price, app.py lines 547-552). -/
def serializePoint (pp : PricePoint) : RawPriceItem :=
  ⟨.iso pp.ts, pp.price⟩

/-- Raw payload served when a refetch cannot produce data:
`latest_data.data if latest_data else []` (app.py lines 539, 589, 603). -/
def pseFallback (latest : Option PseSnap) : List RawPriceItem :=
  match latest with
  | some l => l.data
  | none => []

/-- Points parsed out of the fetched day(s): today's records, plus
tomorrow's when the local hour is at least 16 and tomorrow's response is
a well-formed body (a malformed tomorrow body is silently skipped,
app.py line 567). -/
def parsedFetch (fT fTm : FetchOutcome) (now : Int) : List PricePoint :=
  match fT with
  | .ok items =>
    let ps := items.filterMap parsePseApiItem
    if 960 ≤ timeOfDay now then
      match fTm with
      | .ok items2 => ps ++ items2.filterMap parsePseApiItem
      | _ => ps
    else ps
  | _ => []

/-- Refetch branch of `get_pse_prices` (app.py lines 519-603): a network
error on either request, a malformed today body, or an empty parse all
fall back to the previous snapshot's raw payload without persisting;
otherwise the parsed points are persisted as a new snapshot and
returned. -/
def pseRefetch (latest : Option PseSnap) (now : Int) (fT fTm : FetchOutcome) :
    List RawPriceItem × Option (List RawPriceItem) :=
  match fT with
  | .netError => (pseFallback latest, none)
  | .malformedResp => (pseFallback latest, none)
  | .ok _ =>
    if 960 ≤ timeOfDay now ∧ fTm = .netError then (pseFallback latest, none)
    else
      let ps := parsedFetch fT fTm now
      if ps = [] then (pseFallback latest, none)
      else (ps.map serializePoint, some (ps.map serializePoint))

/-- Result of one `get_pse_prices` call: the returned payload, whether
an upstream call was made, and the snapshot persisted, if any. -/
structure PseOutcome where
  result : List RawPriceItem
  fetched : Bool
  persisted : Option (List RawPriceItem)
deriving DecidableEq, Repr

/-- The tomorrow-publication check (app.py lines 470-476): the cached
payload contains at least one item dated `now + 1 day`.  The set
comprehension calls `datetime.fromisoformat` on every item, so it is
only reached without raising when every item is ISO. -/
def hasTomorrowPoint (l : PseSnap) (now : Int) : Bool :=
  l.data.any fun it => isoDateOf it == some (dateOf now + 1)

/-- True iff `datetime.fromisoformat` succeeds on every cached item. -/
def allIso (l : PseSnap) : Bool :=
  l.data.all isIsoItem

/-- Points parsed out of the cached payload (app.py lines 486-509). -/
def cachedParse (l : PseSnap) : List PricePoint :=
  l.data.filterMap parseCachedItem

/-- Serve-from-cache branch of `get_pse_prices` (app.py lines 484-517):
parse the cached payload, return it re-serialized when at least one
point parsed, otherwise fall through to a refetch. -/
def pseServe (l : PseSnap) (now : Int) (fT fTm : FetchOutcome) :
    Except Unit PseOutcome :=
  let ps := cachedParse l
  if ps = [] then
    .ok ⟨(pseRefetch (some l) now fT fTm).1, true, (pseRefetch (some l) now fT fTm).2⟩
  else .ok ⟨ps.map serializePoint, false, none⟩

/-- Embedding of `get_pse_prices` (app.py lines 442-606).  The staleness
check refetches when the snapshot is absent, when its `fetched_at` date
is older than `now`'s date, or when the local hour is at least 16 and no
cached item is dated tomorrow; the tomorrow check raises (uncaught) when
some cached item is not ISO.  Serving from cache falls through to a
refetch when the cached payload parses to zero points. -/
def get_pse_prices (latest : Option PseSnap) (now : Int) (fT fTm : FetchOutcome) :
    Except Unit PseOutcome :=
  match latest with
  | none =>
    .ok ⟨(pseRefetch none now fT fTm).1, true, (pseRefetch none now fT fTm).2⟩
  | some l =>
    if dateOf l.fetchedAt < dateOf now then
      .ok ⟨(pseRefetch (some l) now fT fTm).1, true, (pseRefetch (some l) now fT fTm).2⟩
    else if 960 ≤ timeOfDay now then
      if allIso l then
        if hasTomorrowPoint l now then pseServe l now fT fTm
        else
          .ok ⟨(pseRefetch (some l) now fT fTm).1, true, (pseRefetch (some l) now fT fTm).2⟩
      else .error ()
    else pseServe l now fT fTm

/-- Effect of one `get_pse_prices` call on the `pse_data` table (stored
newest first): at most one new snapshot is prepended; nothing is ever
updated or deleted. -/
def pseStoreAfter (store : List PseSnap) (now : Int) (fT fTm : FetchOutcome) :
    List PseSnap :=
  match get_pse_prices store.head? now fT fTm with
  | .ok o =>
    match o.persisted with
    | some s => ⟨now, s⟩ :: store
    | none => store
  | .error _ => store

/-- A refetch round succeeded: today's request returned a well-formed or
malformed body rather than raising, and, when the tomorrow request is
made at all (local hour at least 16), it did not raise either. -/
def pseFetchSuccess (fT fTm : FetchOutcome) (now : Int) : Prop :=
  (∃ items, fT = .ok items) ∧ (960 ≤ timeOfDay now → fTm ≠ .netError)

/-! ## app.py lines 223-439 : the forecast reconciler `get_solcast_data`

The function reads the two most recent `solcast_data` rows, deletes the
ones whose payload fails validation (not a non-empty list of records
with `period_end`), picks the surviving rows as `latest` and `previous`,
refetches when `latest` is absent or more than 30 minutes old, falls
back to `latest` when the fetch fails (returning an empty frame when
there is no `latest` either), and finally runs the morning-gap backfill
against `previous`.  An upstream response whose `forecasts` list is
empty aborts processing with a `KeyError` and therefore behaves exactly
like a failed fetch. -/

/-- Ordered insertion used by the timestamp sort. -/
def insertByTs (p : ForecastPoint) : List ForecastPoint → List ForecastPoint
  | [] => [p]
  | q :: qs => if p.ts ≤ q.ts then p :: q :: qs else q :: insertByTs p qs

/-- Sort of a forecast frame by timestamp (`df.sort_index()`). -/
def sortByTs : List ForecastPoint → List ForecastPoint
  | [] => []
  | p :: ps => insertByTs p (sortByTs ps)

/-- Minimum timestamp of a frame (`df.index.min()`); junk value on the
empty frame, which no caller reaches. -/
def minTs : List ForecastPoint → Int
  | [] => 0
  | p :: ps => ps.foldl (fun m q => min m q.ts) p.ts

/-- Maximum timestamp of a frame (`df.index.max()`). -/
def maxTs : List ForecastPoint → Int
  | [] => 0
  | p :: ps => ps.foldl (fun m q => max m q.ts) p.ts

/-- Linear interpolation of one estimate column of a sorted frame at
instant `t`, clamped at the ends.  On the uniform 15-minute grid the
positional interpolation of `.interpolate()` coincides with time-based
interpolation; no theorem below depends on interpolated magnitudes. -/
def interpCol (f : ForecastPoint → ℚ) : List ForecastPoint → Int → ℚ
  | [], _ => 0
  | [p], _ => f p
  | p :: q :: rest, t =>
    if t ≤ p.ts then f p
    else if t ≤ q.ts then
      f p + (f q - f p) * (((t : ℚ) - (p.ts : ℚ)) / ((q.ts : ℚ) - (p.ts : ℚ)))
    else interpCol f (q :: rest) t

/-- Normalization to the 15-minute grid
(`set_index("period_end").resample("15min").interpolate()`, app.py line
298): grid instants run from the first timestamp rounded down to the
grid through the last timestamp, each carrying interpolated columns. -/
def resample15 (pts : List ForecastPoint) : List ForecastPoint :=
  match sortByTs pts with
  | [] => []
  | p :: ps =>
    let a := 15 * (minTs (p :: ps) / 15)
    let n := ((maxTs (p :: ps) - a) / 15).toNat + 1
    (List.range n).map fun (i : Nat) =>
      let t := a + 15 * (i : Int)
      ⟨t, interpCol ForecastPoint.pv_estimate (p :: ps) t,
        interpCol ForecastPoint.pv_estimate10 (p :: ps) t,
        interpCol ForecastPoint.pv_estimate90 (p :: ps) t⟩

/-- Previous-snapshot rows eligible for the morning-gap backfill (app.py
lines 325-328 and 398-401): rows dated on `now`'s calendar date and
strictly before the candidate's earliest timestamp. -/
def morningFilter (prev : List ForecastPoint) (nowDate earliest : Int) :
    List ForecastPoint :=
  prev.filter fun q => decide (dateOf q.ts = nowDate) && decide (q.ts < earliest)

/-- Core of the morning-gap backfill (app.py lines 300-341 and 373-413):
the merge fires when the candidate's earliest timestamp has a
wall-clock time of day strictly later than 05:00 (the code compares
`earliest_time.time() > expected_start.time()`, times of day only), a
previous snapshot exists, and it has eligible rows; the merged frame is
the eligible rows prepended and re-sorted.  Returns `none` when nothing
is merged. -/
def backfillMerge (df : List ForecastPoint)
    (prevOpt : Option (List ForecastPoint)) (nowDate : Int) :
    Option (List ForecastPoint) :=
  match df, prevOpt with
  | [], _ => none
  | _ :: _, none => none
  | _ :: _, some prev =>
    if 300 < timeOfDay (minTs df) then
      let morning := morningFilter prev nowDate (minTs df)
      if morning = [] then none else some (sortByTs (morning ++ df))
    else none

/-- Morning-gap backfill: the merged frame when the merge fires, the
candidate frame unchanged otherwise. -/
def morningBackfill (df : List ForecastPoint)
    (prevOpt : Option (List ForecastPoint)) (nowDate : Int) :
    List ForecastPoint :=
  (backfillMerge df prevOpt nowDate).getD df

/-- One row of the `solcast_data` table: fetch timestamp and payload;
`payload = none` models a record whose JSON cannot be parsed at all. -/
structure SolSnap where
  ts : Int
  payload : Option (List ForecastPoint)
deriving DecidableEq, Repr

/-- Record validation (app.py lines 241-253): the payload must parse,
be a non-empty list, and its first record must have `period_end` (which
the typed payload guarantees); the surviving payload is returned. -/
def validPayload : Option (List ForecastPoint) → Option (List ForecastPoint)
  | none => none
  | some [] => none
  | some (p :: ps) => some (p :: ps)

/-- Valid snapshots among the queried rows, in query order; the first is
`latest_data`, the second `previous_data` (app.py lines 255-258). -/
def validSnaps (recs : List SolSnap) : List (Int × List ForecastPoint) :=
  recs.filterMap fun r => (validPayload r.payload).map fun pts => (r.ts, pts)

/-- Result of one `get_solcast_data` call: the returned frame and the
payloads persisted as new snapshots (the fetch-path save of app.py lines
349-351 and the backfill save of lines 415-424). -/
structure SolOutcome where
  result : List ForecastPoint
  persisted : List (List ForecastPoint)
deriving DecidableEq, Repr

/-- Fetch-or-fallback path of `get_solcast_data` (app.py lines 275-364),
followed by the unconditional second backfill pass (lines 373-424):
a successful non-empty fetch is resampled, morning-backfilled in the
fetch branch, persisted, then passed through the second backfill pass
(persisting again if that pass merges); a failed, malformed or empty
fetch falls back to `latest` — still running the second backfill pass,
and persisting its merge because `should_fetch_new` is still true — or
returns the empty frame when no `latest` exists. -/
def solcastFetchPath (latest : Option (Int × List ForecastPoint))
    (prevPts : Option (List ForecastPoint))
    (fetch : Option (List ForecastPoint)) (nowD : Int) : SolOutcome :=
  match fetch with
  | some (fp :: fps) =>
    let df1 := morningBackfill (resample15 (fp :: fps)) prevPts nowD
    let df2 := morningBackfill df1 prevPts nowD
    ⟨df2, df1 :: (match backfillMerge df1 prevPts nowD with
      | some _ => [df2]
      | none => [])⟩
  | _ =>
    match latest with
    | some (_, lpts) =>
      ⟨morningBackfill lpts prevPts nowD,
        match backfillMerge lpts prevPts nowD with
        | some _ => [morningBackfill lpts prevPts nowD]
        | none => []⟩
    | none => ⟨[], []⟩

/-- Embedding of `get_solcast_data` (app.py lines 223-439) over the two
most recent store rows: serve `latest` (plus the second backfill pass,
no persisting) when it is at most 30 minutes old, otherwise fetch with
fallback.  `fetch = none` is a network error or malformed response and
`fetch = some []` an empty `forecasts` list, which aborts identically. -/
def solcastRun (store : List SolSnap) (fetch : Option (List ForecastPoint))
    (now : Int) : SolOutcome :=
  let vs := validSnaps (store.take 2)
  let prevPts := (vs.drop 1).head?.map Prod.snd
  match vs.head? with
  | some (lts, lpts) =>
    if now - lts ≤ 30 then ⟨morningBackfill lpts prevPts (dateOf now), []⟩
    else solcastFetchPath (some (lts, lpts)) prevPts fetch (dateOf now)
  | none => solcastFetchPath none prevPts fetch (dateOf now)

/-- Returned frame of one `get_solcast_data` call. -/
def get_solcast_data (store : List SolSnap) (fetch : Option (List ForecastPoint))
    (now : Int) : List ForecastPoint :=
  (solcastRun store fetch now).result

/-- Effect of one `get_solcast_data` call on the `solcast_data` table
(stored newest first): among the two queried rows the ones failing
validation are deleted (app.py lines 249-263); new snapshots are
prepended; rows beyond the two queried are untouched. -/
def solcastStoreAfter (store : List SolSnap)
    (fetch : Option (List ForecastPoint)) (now : Int) : List SolSnap :=
  ((solcastRun store fetch now).persisted.map
      fun pts => (⟨now, some pts⟩ : SolSnap)) ++
    (store.take 2).filter (fun r => (validPayload r.payload).isSome) ++
    store.drop 2

/-! ## Claim theorems -/

/-- Splitting a column sum at `now` loses nothing: the rows at or before
`now` and the rows strictly after it partition the frame. -/
theorem colSum_split_at (f : ValuedPoint → ℚ) (now : Int) :
    ∀ l : List ValuedPoint,
      colSum f (l.filter fun p => decide (p.ts ≤ now)) +
        colSum f (l.filter fun p => decide (now < p.ts)) = colSum f l
  | [] => by simp [colSum]
  | x :: l => by
    have ih := colSum_split_at f now l
    simp only [colSum] at ih ⊢
    by_cases h : x.ts ≤ now
    · have h2 : ¬ now < x.ts := not_lt.mpr h
      simp [List.filter_cons, h, h2]
      linarith
    · have h2 : now < x.ts := not_le.mp h
      simp [List.filter_cons, h, h2]
      linarith

/-- C8: partitioning today's rows at `now` makes produced plus remaining
energy equal today's daily total, exactly over `ℚ` (hence within any
floating-point tolerance), for the central estimate and for both
percentile columns. -/
theorem c8_produced_plus_remaining (pts : List ValuedPoint) (today now : Int) :
    producedEnergyOf ValuedPoint.pv_estimate pts today now +
        remainingEnergyOf ValuedPoint.pv_estimate pts today now =
      dailyEnergyOf ValuedPoint.pv_estimate pts today ∧
    producedEnergyOf ValuedPoint.pv_estimate10 pts today now +
        remainingEnergyOf ValuedPoint.pv_estimate10 pts today now =
      dailyEnergyOf ValuedPoint.pv_estimate10 pts today ∧
    producedEnergyOf ValuedPoint.pv_estimate90 pts today now +
        remainingEnergyOf ValuedPoint.pv_estimate90 pts today now =
      dailyEnergyOf ValuedPoint.pv_estimate90 pts today := by
  refine ⟨?_, ?_, ?_⟩ <;>
    · unfold producedEnergyOf remainingEnergyOf dailyEnergyOf producedData
        remainingData
      rw [← add_mul, colSum_split_at]

/-- C1: for every merged point, with a price present the value cell is
exactly `pv * price / 1000 * 0.25`; the filled value ratio is exactly `0`
(a total rational, never `NaN`) whenever `pv_estimate = 0`; both
percentile value columns are the corresponding percentile estimate times
the filled ratio, which for a non-degenerate point equals
`price / 1000 * 0.25` exactly.  Exact equality over `ℚ` is stronger than
the `1e-9` tolerance the specification asks for. -/
theorem c1_value_formula (pv pv10 pv90 price : ℚ) (priceCell : Option ℚ) :
    valueOf pv (some price) = some (pv * price / 1000 * (1 / 4)) ∧
    (pv = 0 → valueRatioFilled pv (valueOf pv priceCell) = 0) ∧
    percentileValue pv10 pv (valueOf pv priceCell)
      = pv10 * valueRatioFilled pv (valueOf pv priceCell) ∧
    percentileValue pv90 pv (valueOf pv priceCell)
      = pv90 * valueRatioFilled pv (valueOf pv priceCell) ∧
    (pv ≠ 0 →
      valueRatioFilled pv (valueOf pv (some price)) = price / 1000 * (1 / 4)) := by
  refine ⟨rfl, fun h => by simp [valueRatioFilled, h], rfl, rfl, fun h => ?_⟩
  simp only [valueOf, Option.map_some', valueRatioFilled, if_neg h]
  field_simp
  ring

/-- Witness for `c1_value_formula` at `pv = 2`, `price = 100`. -/
theorem c1_value_formula_witness :
    valueRatioFilled 2 (valueOf 2 (some 100)) = 100 / 1000 * (1 / 4) ∧
    valueRatioFilled 0 (valueOf 0 (some 100)) = 0 := by
  have h := c1_value_formula 2 3 4 100 (some 100)
  have h0 := c1_value_formula 0 3 4 100 (some 100)
  exact ⟨h.2.2.2.2 (by norm_num), h0.2.1 rfl⟩

/-- C10: `get_cached_data` returns a payload iff the key's row exists and
was stored strictly less than one hour before `now`; and `cache_data`
replaces any prior row for the key while leaving other keys unchanged. -/
theorem c10_cache_roundtrip (c : CacheTable) (key payload now t k : Int) :
    (get_cached_data c key now = some payload ↔
      ∃ storedAt, c key = some (payload, storedAt) ∧ now - storedAt < 60) ∧
    cache_data c key payload t key = some (payload, t) ∧
    (k ≠ key → cache_data c key payload t k = c k) := by
  refine ⟨?_, by simp [cache_data], fun hk => by simp [cache_data, hk]⟩
  constructor
  · intro h
    unfold get_cached_data at h
    cases hrow : c key with
    | none => simp [hrow] at h
    | some row =>
      obtain ⟨p, s⟩ := row
      rw [hrow] at h
      by_cases hfresh : now - s < 60
      · refine ⟨s, ?_, hfresh⟩
        simp only [if_pos hfresh, Option.some.injEq] at h
        rw [h]
      · simp [hfresh] at h
  · rintro ⟨storedAt, hrow, hfresh⟩
    unfold get_cached_data
    rw [hrow]
    simp [hfresh]

/-- Witness for `c10_cache_roundtrip`: a key stored at minute 0 is
returned at minute 59 and a distinct key is untouched. -/
theorem c10_cache_roundtrip_witness :
    (get_cached_data (cache_data (fun _ => none) 1 7 0) 1 59 = some 7 ↔
      ∃ storedAt, cache_data (fun _ => none) 1 7 0 1 = some (7, storedAt) ∧
        (59 : Int) - storedAt < 60) ∧
    cache_data (fun _ => none) 1 7 0 2 = (fun _ => (none : Option (Int × Int))) 2 := by
  have h := c10_cache_roundtrip (cache_data (fun _ => none) 1 7 0) 1 7 59 0 2
  have h2 := c10_cache_roundtrip (fun _ => none) 1 7 59 0 2
  exact ⟨h.1, h2.2.2 (by decide)⟩

/-- C5 counterexample: a cached snapshot fetched on `now`'s own date,
before 16:00 local, whose payload parses to zero valid points.  None of
the three claimed triggers holds (snapshot present, same calendar date,
hour below 16), yet `get_pse_prices` performs an upstream refetch. -/
theorem c5_counterexample :
    dateOf (4320 : Int) = dateOf 4920 ∧ timeOfDay 4920 < 960 ∧
    get_pse_prices (some ⟨4320, [⟨.bad, 0⟩]⟩) 4920 (.ok []) .netError =
      .ok ⟨[⟨.bad, 0⟩], true, none⟩ := by
  refine ⟨rfl, by decide, rfl⟩

/-- C5 as amended: an upstream refetch is triggered exactly when the
snapshot is absent, or its `fetched_at` date is older than `now`'s date,
or the local hour is at least 16 and no cached item is dated tomorrow,
or the cached payload parses to zero valid points; when none of these
hold the cached payload is parsed and served with no upstream call and
nothing persisted. -/
theorem c5_refetch_trigger (latest : Option PseSnap) (now : Int)
    (fT fTm : FetchOutcome) (out : PseOutcome)
    (hok : get_pse_prices latest now fT fTm = .ok out) :
    (out.fetched = true ↔
      latest = none ∨ ∃ l, latest = some l ∧
        (dateOf l.fetchedAt < dateOf now ∨
          (960 ≤ timeOfDay now ∧ hasTomorrowPoint l now = false) ∨
          cachedParse l = [])) ∧
    (out.fetched = false →
      ∃ l, latest = some l ∧
        out.result = (cachedParse l).map serializePoint ∧
        out.persisted = none) := by
  cases latest with
  | none =>
    simp only [get_pse_prices, Except.ok.injEq] at hok
    subst hok
    exact ⟨⟨fun _ => Or.inl rfl, fun _ => rfl⟩, by simp⟩
  | some l =>
    by_cases hdate : dateOf l.fetchedAt < dateOf now
    · simp only [get_pse_prices, if_pos hdate, Except.ok.injEq] at hok
      subst hok
      exact ⟨⟨fun _ => Or.inr ⟨l, rfl, Or.inl hdate⟩, fun _ => rfl⟩, by simp⟩
    · have serveCase :
          pseServe l now fT fTm = .ok out →
          (960 ≤ timeOfDay now → hasTomorrowPoint l now = true) →
          (out.fetched = true ↔
            (some l : Option PseSnap) = none ∨ ∃ l', some l = some l' ∧
              (dateOf l'.fetchedAt < dateOf now ∨
                (960 ≤ timeOfDay now ∧ hasTomorrowPoint l' now = false) ∨
                cachedParse l' = [])) ∧
          (out.fetched = false →
            ∃ l', some l = some l' ∧
              out.result = (cachedParse l').map serializePoint ∧
              out.persisted = none) := by
        intro hserve htom
        by_cases hcp : cachedParse l = []
        · simp only [pseServe, hcp, if_pos, Except.ok.injEq] at hserve
          subst hserve
          exact ⟨⟨fun _ => Or.inr ⟨l, rfl, Or.inr (Or.inr hcp)⟩, fun _ => rfl⟩,
            by simp⟩
        · simp only [pseServe, if_neg hcp, Except.ok.injEq] at hserve
          subst hserve
          constructor
          · constructor
            · intro hfetched
              simp at hfetched
            · rintro (h | ⟨l', hl', hcases⟩)
              · cases h
              · obtain rfl : l' = l := by injection hl' with h; exact h.symm
                rcases hcases with h | ⟨hh, hmiss⟩ | h
                · exact absurd h hdate
                · rw [htom hh] at hmiss
                  cases hmiss
                · exact absurd h hcp
          · intro _
            exact ⟨l, rfl, rfl, rfl⟩
      by_cases hhour : 960 ≤ timeOfDay now
      · by_cases hiso : allIso l
        · by_cases htom : hasTomorrowPoint l now
          · simp only [get_pse_prices, if_neg hdate, if_pos hhour, hiso,
              if_pos, htom, if_true] at hok
            exact serveCase hok (fun _ => htom)
          · simp only [get_pse_prices, if_neg hdate, if_pos hhour, hiso,
              if_pos, Bool.not_eq_true] at hok
            rw [Bool.eq_false_iff.mpr htom, if_neg (by simp)] at hok
            simp only [Except.ok.injEq] at hok
            subst hok
            refine ⟨⟨fun _ => Or.inr ⟨l, rfl,
              Or.inr (Or.inl ⟨hhour, Bool.eq_false_iff.mpr htom⟩)⟩,
              fun _ => rfl⟩, by simp⟩
        · simp only [get_pse_prices, if_neg hdate, if_pos hhour] at hok
          rw [Bool.eq_false_iff.mpr hiso] at hok
          simp at hok
      · simp only [get_pse_prices, if_neg hdate, if_neg hhour] at hok
        exact serveCase hok (fun hh => absurd hh hhour)

/-- Witness for `c5_refetch_trigger`: a same-day snapshot with one valid
ISO item, before 16:00, is served from cache with no upstream call. -/
theorem c5_refetch_trigger_witness :
    ((false = true ↔
      (some (⟨4320, [⟨.iso 4330, 50⟩]⟩ : PseSnap) : Option PseSnap) = none ∨
        ∃ l, (some (⟨4320, [⟨.iso 4330, 50⟩]⟩ : PseSnap) : Option PseSnap) = some l ∧
          (dateOf l.fetchedAt < dateOf 4920 ∨
            (960 ≤ timeOfDay 4920 ∧ hasTomorrowPoint l 4920 = false) ∨
            cachedParse l = []))) ∧
    (false = false →
      ∃ l, (some (⟨4320, [⟨.iso 4330, 50⟩]⟩ : PseSnap) : Option PseSnap) = some l ∧
        ([⟨.iso 4330, 50⟩] : List RawPriceItem) = (cachedParse l).map serializePoint ∧
        (none : Option (List RawPriceItem)) = none) := by
  have h := c5_refetch_trigger (some ⟨4320, [⟨.iso 4330, 50⟩]⟩) 4920
    .netError .netError ⟨[⟨.iso 4330, 50⟩], false, none⟩ rfl
  exact h

/-- C6: on a price refetch, a successful round whose parsed point set is
non-empty persists it as a new snapshot and returns it; a failed fetch,
a malformed today body, or an empty parse returns the previous
snapshot's raw payload and persists nothing; and (given that stored
snapshots have non-empty payloads, the only kind this code writes) the
returned payload is empty only when no previous snapshot exists. -/
theorem c6_refetch_persistence (latest : Option PseSnap) (now : Int)
    (fT fTm : FetchOutcome)
    (hinv : ∀ l, latest = some l → l.data ≠ []) :
    (pseFetchSuccess fT fTm now → parsedFetch fT fTm now ≠ [] →
      pseRefetch latest now fT fTm =
        ((parsedFetch fT fTm now).map serializePoint,
          some ((parsedFetch fT fTm now).map serializePoint))) ∧
    (¬(pseFetchSuccess fT fTm now ∧ parsedFetch fT fTm now ≠ []) →
      pseRefetch latest now fT fTm = (pseFallback latest, none)) ∧
    ((pseRefetch latest now fT fTm).1 = [] → latest = none) := by
  have hfall : pseFallback latest = [] → latest = none := by
    intro hemp
    cases hl : latest with
    | none => rfl
    | some l =>
      rw [hl] at hemp
      exact absurd hemp (hinv l hl)
  cases fT with
  | netError =>
    refine ⟨fun hs _ => ?_, fun _ => rfl, fun h => hfall h⟩
    obtain ⟨⟨items, hitems⟩, _⟩ := hs
    cases hitems
  | malformedResp =>
    refine ⟨fun hs _ => ?_, fun _ => rfl, fun h => hfall h⟩
    obtain ⟨⟨items, hitems⟩, _⟩ := hs
    cases hitems
  | ok items =>
    by_cases hcond : 960 ≤ timeOfDay now ∧ fTm = .netError
    · refine ⟨fun hs _ => absurd hcond.2 (hs.2 hcond.1), fun _ => ?_, fun h => ?_⟩
      · simp only [pseRefetch, if_pos hcond]
      · simp only [pseRefetch, if_pos hcond] at h
        exact hfall h
    · by_cases hps : parsedFetch (.ok items) fTm now = []
      · refine ⟨fun _ hp => absurd hps hp, fun _ => ?_, fun h => ?_⟩
        · simp only [pseRefetch, if_neg hcond, hps, if_pos]
        · simp only [pseRefetch, if_neg hcond, hps, if_pos] at h
          exact hfall h
      · refine ⟨fun _ _ => ?_, fun hn => ?_, fun h => ?_⟩
        · simp only [pseRefetch, if_neg hcond, if_neg hps]
        · exfalso
          apply hn
          refine ⟨⟨⟨items, rfl⟩, fun hh heq => hcond ⟨hh, heq⟩⟩, hps⟩
        · simp only [pseRefetch, if_neg hcond, if_neg hps] at h
          exact absurd (List.map_eq_nil_iff.mp h) hps

/-- Witness for `c6_refetch_persistence`: with no previous snapshot and
one parseable legacy record fetched before 16:00, the parsed point is
persisted and returned. -/
theorem c6_refetch_persistence_witness :
    pseRefetch none 0 (.ok [.legacy 3 0 none 10]) .netError =
      ([⟨.iso 4320, 10⟩], some [⟨.iso 4320, 10⟩]) := by
  have h := c6_refetch_persistence none 0 (.ok [.legacy 3 0 none 10]) .netError
    (fun l hl => by cases hl)
  have hs : pseFetchSuccess (.ok [.legacy 3 0 none 10]) .netError 0 :=
    ⟨⟨_, rfl⟩, fun hh => absurd hh (by decide)⟩
  rw [h.1 hs (by decide)]
  rfl

/-- C7 counterexample: a record carrying only the current upstream
fields `business_date`/`dtime` is skipped by the parser (the `KeyError`
on `item["doba"]` is caught and the record dropped), so a response made
only of such records parses to zero points — the claim that both shapes
are accepted fails. -/
theorem c7_counterexample :
    parsePseApiItem (.currentShape 20171 29046240 100) = none ∧
    parsedFetch (.ok [.currentShape 20171 29046240 100]) .netError 0 = [] :=
  ⟨rfl, rfl⟩

/-- C7 as amended: the refetch parser accepts only the legacy
`doba`/`udtczas_oreb` shape, taking just the start time of a time-range
field — the record with `doba` day 20171 (2025-03-24) and range
"00:00 - 00:15" parses to the instant 2025-03-24T00:00:00 — while a
record carrying only `business_date`/`dtime` is skipped. -/
theorem c7_parser_shapes (doba orebStart : Int) (orebEnd : Option Int)
    (rce : ℚ) (bd dtime : Int) :
    parsePseApiItem (.legacy doba orebStart orebEnd rce) =
      some ⟨doba * 1440 + orebStart, rce⟩ ∧
    parsePseApiItem (.legacy 20171 0 (some 15) rce) =
      some ⟨20171 * 1440, rce⟩ ∧
    parsePseApiItem (.currentShape bd dtime rce) = none := by
  refine ⟨rfl, ?_, rfl⟩
  simp [parsePseApiItem]

/-- Membership in an ordered insertion. -/
theorem mem_insertByTs (q p : ForecastPoint) :
    ∀ l : List ForecastPoint, q ∈ insertByTs p l ↔ q = p ∨ q ∈ l
  | [] => by simp [insertByTs]
  | x :: l => by
    by_cases h : p.ts ≤ x.ts
    · simp [insertByTs, h]
    · simp only [insertByTs, if_neg h, List.mem_cons, mem_insertByTs q p l]
      tauto

/-- Sorting by timestamp preserves membership. -/
theorem mem_sortByTs (q : ForecastPoint) :
    ∀ l : List ForecastPoint, q ∈ sortByTs l ↔ q ∈ l
  | [] => by simp [sortByTs]
  | x :: l => by
    simp [sortByTs, mem_insertByTs, mem_sortByTs q l]

/-- Ordered insertion grows the length by one. -/
theorem length_insertByTs (p : ForecastPoint) :
    ∀ l : List ForecastPoint, (insertByTs p l).length = l.length + 1
  | [] => rfl
  | x :: l => by
    by_cases h : p.ts ≤ x.ts
    · simp [insertByTs, h]
    · simp [insertByTs, h, length_insertByTs p l]

/-- Sorting preserves the length. -/
theorem length_sortByTs :
    ∀ l : List ForecastPoint, (sortByTs l).length = l.length
  | [] => rfl
  | x :: l => by simp [sortByTs, length_insertByTs, length_sortByTs l]

/-- Sorting sends exactly the empty frame to the empty frame. -/
theorem sortByTs_eq_nil_iff (l : List ForecastPoint) :
    sortByTs l = [] ↔ l = [] := by
  constructor
  · intro h
    have := length_sortByTs l
    rw [h] at this
    exact List.length_eq_zero.mp this.symm
  · rintro rfl
    rfl

/-- Resampling a non-empty frame yields a non-empty frame. -/
theorem resample15_ne_nil (pts : List ForecastPoint) (h : pts ≠ []) :
    resample15 pts ≠ [] := by
  unfold resample15
  cases hs : sortByTs pts with
  | nil => exact absurd ((sortByTs_eq_nil_iff pts).mp hs) h
  | cons p ps =>
    intro hmap
    have hlen := congrArg List.length hmap
    simp at hlen

/-- A payload surviving validation is non-empty. -/
theorem validPayload_ne_nil (o : Option (List ForecastPoint))
    (pts : List ForecastPoint) (h : validPayload o = some pts) : pts ≠ [] := by
  match o with
  | none => cases h
  | some [] => cases h
  | some (p :: ps) =>
    injection h with h
    rw [← h]
    simp

/-- The payload of the first valid snapshot is non-empty. -/
theorem validSnaps_head_ne_nil (recs : List SolSnap) (lts : Int)
    (lpts : List ForecastPoint)
    (h : (validSnaps recs).head? = some (lts, lpts)) : lpts ≠ [] := by
  have hmem : (lts, lpts) ∈ validSnaps recs := List.mem_of_mem_head? h
  unfold validSnaps at hmem
  rw [List.mem_filterMap] at hmem
  obtain ⟨r, _, hr⟩ := hmem
  rw [Option.map_eq_some'] at hr
  obtain ⟨pl, hpl, heq⟩ := hr
  injection heq with h1 h2
  rw [← h2]
  exact validPayload_ne_nil _ _ hpl

/-- Characterization of a firing backfill merge. -/
theorem backfillMerge_eq_some (df m : List ForecastPoint)
    (prevOpt : Option (List ForecastPoint)) (nowDate : Int)
    (h : backfillMerge df prevOpt nowDate = some m) :
    ∃ prev, prevOpt = some prev ∧ df ≠ [] ∧ 300 < timeOfDay (minTs df) ∧
      morningFilter prev nowDate (minTs df) ≠ [] ∧
      m = sortByTs (morningFilter prev nowDate (minTs df) ++ df) := by
  match df, prevOpt with
  | [], _ => cases h
  | _ :: _, none => cases h
  | d :: ds, some prev =>
    refine ⟨prev, rfl, by simp, ?_⟩
    by_cases htr : 300 < timeOfDay (minTs (d :: ds))
    · by_cases hm : morningFilter prev nowDate (minTs (d :: ds)) = []
      · simp [backfillMerge, htr, hm] at h
      · simp only [backfillMerge, if_pos htr, if_neg hm, Option.some.injEq] at h
        exact ⟨htr, hm, h.symm⟩
    · simp [backfillMerge, htr] at h

/-- The backfill never empties a non-empty candidate frame. -/
theorem morningBackfill_ne_nil (df : List ForecastPoint)
    (prevOpt : Option (List ForecastPoint)) (nowDate : Int) (h : df ≠ []) :
    morningBackfill df prevOpt nowDate ≠ [] := by
  unfold morningBackfill
  cases hbm : backfillMerge df prevOpt nowDate with
  | none => exact h
  | some m =>
    obtain ⟨prev, _, _, _, _, hm⟩ := backfillMerge_eq_some df m prevOpt nowDate hbm
    simp only [Option.getD_some, hm]
    intro hnil
    rw [sortByTs_eq_nil_iff, List.append_eq_nil] at hnil
    exact h hnil.2

/-- Every candidate row survives the backfill. -/
theorem mem_morningBackfill_of_mem (df : List ForecastPoint)
    (prevOpt : Option (List ForecastPoint)) (nowDate : Int)
    (p : ForecastPoint) (hp : p ∈ df) :
    p ∈ morningBackfill df prevOpt nowDate := by
  unfold morningBackfill
  cases hbm : backfillMerge df prevOpt nowDate with
  | none => exact hp
  | some m =>
    obtain ⟨prev, _, _, _, _, hm⟩ := backfillMerge_eq_some df m prevOpt nowDate hbm
    simp only [Option.getD_some, hm, mem_sortByTs]
    exact List.mem_append.mpr (Or.inr hp)

/-- C2: `get_solcast_data` returns the empty frame — which the caller
`index` turns into the hard 500 failure — exactly when no snapshot among
the two it reads survives validation and the upstream fetch fails (a
network error, a malformed response, or an empty `forecasts` list); in
every other case the returned frame is non-empty. -/
theorem c2_unavailable_iff (store : List SolSnap)
    (fetch : Option (List ForecastPoint)) (now : Int) :
    get_solcast_data store fetch now = [] ↔
      ((validSnaps (store.take 2)).head? = none ∧
        (fetch = none ∨ fetch = some [])) := by
  have hrun : solcastRun store fetch now =
      (match (validSnaps (store.take 2)).head? with
      | some (lts, lpts) =>
        if now - lts ≤ 30 then
          ⟨morningBackfill lpts
            (((validSnaps (store.take 2)).drop 1).head?.map Prod.snd)
            (dateOf now), []⟩
        else
          solcastFetchPath (some (lts, lpts))
            (((validSnaps (store.take 2)).drop 1).head?.map Prod.snd)
            fetch (dateOf now)
      | none =>
        solcastFetchPath none
          (((validSnaps (store.take 2)).drop 1).head?.map Prod.snd)
          fetch (dateOf now) : SolOutcome) := rfl
  unfold get_solcast_data
  rw [hrun]
  cases hv : (validSnaps (store.take 2)).head? with
  | some x =>
    obtain ⟨lts, lpts⟩ := x
    have hlp : lpts ≠ [] := validSnaps_head_ne_nil _ _ _ hv
    refine iff_of_false ?_ (by simp)
    by_cases hfresh : now - lts ≤ 30
    · simp only [if_pos hfresh]
      exact morningBackfill_ne_nil _ _ _ hlp
    · simp only [if_neg hfresh]
      cases fetch with
      | none => exact morningBackfill_ne_nil _ _ _ hlp
      | some pts =>
        cases pts with
        | nil => exact morningBackfill_ne_nil _ _ _ hlp
        | cons fp fps =>
          exact morningBackfill_ne_nil _ _ _
            (morningBackfill_ne_nil _ _ _ (resample15_ne_nil _ (by simp)))
  | none =>
    cases fetch with
    | none => exact iff_of_true rfl ⟨rfl, Or.inl rfl⟩
    | some pts =>
      cases pts with
      | nil => exact iff_of_true rfl ⟨rfl, Or.inr rfl⟩
      | cons fp fps =>
        refine iff_of_false ?_ (by simp)
        exact morningBackfill_ne_nil _ _ _
          (morningBackfill_ne_nil _ _ _ (resample15_ne_nil _ (by simp)))

/-- C3 counterexample: `now` is 10:00 on day 3; the candidate frame's
earliest point lies on day 4 at 03:00, which is later than 05:00 on
`now`'s date as a full timestamp, and the previous snapshot holds an
eligible point (day 3 at 04:00, strictly before the earliest point), yet
no backfill fires and nothing is prepended: the code compares only the
wall-clock time of day (03:00 is not later than 05:00). -/
theorem c3_counterexample :
    dateOf 4920 * 1440 + 300 < minTs [(⟨5940, 1, 1, 1⟩ : ForecastPoint)] ∧
    (⟨4560, 2, 2, 2⟩ : ForecastPoint) ∈ [(⟨4560, 2, 2, 2⟩ : ForecastPoint)] ∧
    (4560 : Int) < minTs [(⟨5940, 1, 1, 1⟩ : ForecastPoint)] ∧
    dateOf 4560 = dateOf 4920 ∧
    morningBackfill [⟨5940, 1, 1, 1⟩] (some [⟨4560, 2, 2, 2⟩]) (dateOf 4920) =
      [⟨5940, 1, 1, 1⟩] := by
  refine ⟨by decide, by decide, by decide, by decide, by decide⟩

/-- C3 as amended: the backfill only prepends previous-snapshot rows
strictly before the candidate's earliest timestamp and dated on `now`'s
calendar date (hence never dated after `now`'s date); every candidate
row survives unchanged (nothing is overwritten); and the merge is gated
exactly by the earliest timestamp's wall-clock time of day being
strictly later than 05:00 — when the gate is closed the frame is
returned untouched, and when it is open every eligible previous row is
prepended. -/
theorem c3_backfill_invariants (df prev : List ForecastPoint) (now : Int)
    (hdf : df ≠ []) :
    (∀ p ∈ morningBackfill df (some prev) (dateOf now),
      p ∈ df ∨ (p ∈ prev ∧ p.ts < minTs df ∧ dateOf p.ts = dateOf now)) ∧
    (∀ p ∈ df, p ∈ morningBackfill df (some prev) (dateOf now)) ∧
    (¬ 300 < timeOfDay (minTs df) →
      morningBackfill df (some prev) (dateOf now) = df) ∧
    (300 < timeOfDay (minTs df) →
      ∀ q ∈ prev, q.ts < minTs df → dateOf q.ts = dateOf now →
        q ∈ morningBackfill df (some prev) (dateOf now)) := by
  obtain ⟨d, ds, rfl⟩ : ∃ d ds, df = d :: ds := by
    cases df with
    | nil => exact absurd rfl hdf
    | cons d ds => exact ⟨d, ds, rfl⟩
  by_cases htr : 300 < timeOfDay (minTs (d :: ds))
  · by_cases hm : morningFilter prev (dateOf now) (minTs (d :: ds)) = []
    · have hmb : morningBackfill (d :: ds) (some prev) (dateOf now) = d :: ds := by
        simp [morningBackfill, backfillMerge, htr, hm]
      refine ⟨?_, ?_, fun _ => hmb, ?_⟩
      · rw [hmb]
        exact fun p hp => Or.inl hp
      · rw [hmb]
        exact fun p hp => hp
      · intro _ q hq hlt hdate
        exfalso
        have hqm : q ∈ morningFilter prev (dateOf now) (minTs (d :: ds)) := by
          simp only [morningFilter, List.mem_filter, Bool.and_eq_true,
            decide_eq_true_eq]
          exact ⟨hq, hdate, hlt⟩
        rw [hm] at hqm
        exact absurd hqm (List.not_mem_nil q)
    · have hmb : morningBackfill (d :: ds) (some prev) (dateOf now) =
          sortByTs (morningFilter prev (dateOf now) (minTs (d :: ds)) ++ (d :: ds)) := by
        simp [morningBackfill, backfillMerge, htr, hm]
      refine ⟨?_, ?_, fun hc => absurd htr hc, ?_⟩
      · intro p hp
        rw [hmb, mem_sortByTs] at hp
        rcases List.mem_append.mp hp with h | h
        · right
          have hf := List.mem_filter.mp h
          have hcond := hf.2
          simp only [Bool.and_eq_true, decide_eq_true_eq] at hcond
          exact ⟨hf.1, hcond.2, hcond.1⟩
        · exact Or.inl h
      · intro p hp
        rw [hmb, mem_sortByTs]
        exact List.mem_append.mpr (Or.inr hp)
      · intro _ q hq hlt hdate
        rw [hmb, mem_sortByTs]
        refine List.mem_append.mpr (Or.inl ?_)
        simp only [morningFilter, List.mem_filter, Bool.and_eq_true,
          decide_eq_true_eq]
        exact ⟨hq, hdate, hlt⟩
  · have hmb : morningBackfill (d :: ds) (some prev) (dateOf now) = d :: ds := by
      simp [morningBackfill, backfillMerge, htr]
    refine ⟨?_, ?_, fun _ => hmb, fun htr2 => absurd htr2 htr⟩
    · rw [hmb]
      exact fun p hp => Or.inl hp
    · rw [hmb]
      exact fun p hp => hp

/-- Witness for `c3_backfill_invariants`: on day 0 with the candidate
starting at 06:00, the gate is open and the 05:15 previous row is
prepended while the candidate row survives. -/
theorem c3_backfill_invariants_witness :
    (⟨315, 2, 2, 2⟩ : ForecastPoint) ∈
      morningBackfill [⟨360, 1, 1, 1⟩] (some [⟨315, 2, 2, 2⟩]) (dateOf 450) ∧
    (⟨360, 1, 1, 1⟩ : ForecastPoint) ∈
      morningBackfill [⟨360, 1, 1, 1⟩] (some [⟨315, 2, 2, 2⟩]) (dateOf 450) := by
  have h := c3_backfill_invariants [⟨360, 1, 1, 1⟩] [⟨315, 2, 2, 2⟩] 450
    (by decide)
  exact ⟨h.2.2.2 (by decide) _ (by decide) (by decide) (by decide),
    h.2.1 _ (by decide)⟩

/-- The forward-fill scan stays empty while every price lies after `t`. -/
theorem foldl_ffillStep_none (t : Int) :
    ∀ l : List PricePoint, (∀ p ∈ l, ¬ p.ts ≤ t) →
      l.foldl (ffillStep t) none = none
  | [], _ => rfl
  | p :: l, h => by
    have hp : ffillStep t none p = none := by
      simp [ffillStep, h p (List.mem_cons_self p l)]
    rw [List.foldl_cons, hp]
    exact foldl_ffillStep_none t l fun q hq => h q (List.mem_cons_of_mem p hq)

/-- No forward-filled price exists at an instant preceding every price
point. -/
theorem lastPriceAtOrBefore_none (prices : List PricePoint) (t : Int)
    (h : ∀ p ∈ prices, t < p.ts) : lastPriceAtOrBefore prices t = none := by
  unfold lastPriceAtOrBefore
  rw [foldl_ffillStep_none t prices fun p hp => not_le.mpr (h p hp)]
  rfl

/-- The aligned price cell is `NaN` at any instant preceding every price
point: no price is invented before the first one. -/
theorem priceOnGrid_none_before (prices : List PricePoint) (t : Int)
    (h : ∀ p ∈ prices, t < p.ts) : priceOnGrid prices t = none := by
  cases prices with
  | nil => rfl
  | cons p ps =>
    simp only [priceOnGrid]
    split
    · exact lastPriceAtOrBefore_none _ _ h
    · rfl

/-- C4 counterexample: with a single price at 10:00 and a forecast slot
at 09:00, no price is invented for the 09:00 slot, but the slot is kept
in the valuation output with a `NaN` value cell — it is not excluded,
and `NaN` does flow into the computed `value` column. -/
theorem c4_counterexample :
    priceOnGrid [⟨600, 400⟩] 540 = none ∧
    valuedSeries [⟨540, 1, 1, 1⟩] [⟨600, 400⟩] = [⟨540, 1, 1, 1, none⟩] := by
  refine ⟨by decide, by decide⟩

/-- C4 as amended: resampling never invents a price before the first
known price point — such slots read a `NaN` price, their value cell is
`NaN`, and they are kept in the per-point output rather than dropped —
and `NaN` value cells are excluded from the daily value totals (the
`NaN`-skipping sum), never defaulted to a contribution. -/
theorem c4_price_gap (prices : List PricePoint) (forecast : List ForecastPoint)
    (fp : ForecastPoint) (vp : ValuedPoint) (pts : List ValuedPoint) (d : Int)
    (hfp : fp ∈ forecast) (hbefore : ∀ p ∈ prices, fp.ts < p.ts)
    (hnan : vp.valueCell = none) :
    priceOnGrid prices fp.ts = none ∧
    valuePointOf prices fp ∈ valuedSeries forecast prices ∧
    (valuePointOf prices fp).valueCell = none ∧
    dailyValueTotal (vp :: pts) d = dailyValueTotal pts d := by
  have h1 := priceOnGrid_none_before prices fp.ts hbefore
  refine ⟨h1, List.mem_map_of_mem _ hfp, ?_, ?_⟩
  · simp [valuePointOf, h1, valueOf]
  · unfold dailyValueTotal
    rw [List.filter_cons]
    by_cases hd : (dateOf vp.ts == d) = true
    · simp [hd, hnan]
    · simp [hd]

/-- Witness for `c4_price_gap`: the 09:00 slot before a 10:00-only price
series carries a `NaN` value cell yet contributes nothing to the daily
value total. -/
theorem c4_price_gap_witness :
    (valuePointOf [⟨600, 400⟩] ⟨540, 1, 1, 1⟩).valueCell = none ∧
    dailyValueTotal [⟨540, 1, 1, 1, none⟩] 0 = dailyValueTotal [] 0 := by
  have h := c4_price_gap [⟨600, 400⟩] [⟨540, 1, 1, 1⟩] ⟨540, 1, 1, 1⟩
    ⟨540, 1, 1, 1, none⟩ [] 0 (by decide) (by decide) rfl
  exact ⟨h.2.2.1, h.2.2.2⟩

/-- C9 counterexample: a store whose only snapshot fails validation (an
empty payload list).  After one `get_solcast_data` call the snapshot is
gone from the store — the hot path deletes snapshots that fail
validation (app.py lines 249-263), contradicting the claim that every
stored snapshot, including invalid ones, is left unchanged. -/
theorem c9_counterexample :
    (⟨0, some []⟩ : SolSnap) ∈ [(⟨0, some []⟩ : SolSnap)] ∧
    solcastStoreAfter [⟨0, some []⟩] none 100 = [] := by
  refine ⟨by decide, by decide⟩

/-- C9 as amended: the price reconciler never updates or deletes
existing snapshots (every stored row survives a call, with at most one
new row prepended); the forecast reconciler preserves every snapshot
that passes validation and every snapshot beyond the two most recent it
reads, and the only rows it removes are rows among the two most recent
that failed validation. -/
theorem c9_store_frame (store : List SolSnap)
    (fetch : Option (List ForecastPoint)) (now : Int)
    (pstore : List PseSnap) (pnow : Int) (fT fTm : FetchOutcome) :
    (∀ s ∈ store, validPayload s.payload ≠ none →
      s ∈ solcastStoreAfter store fetch now) ∧
    (∀ s ∈ store, s ∉ solcastStoreAfter store fetch now →
      validPayload s.payload = none ∧ s ∈ store.take 2) ∧
    (∀ s ∈ pstore, s ∈ pseStoreAfter pstore pnow fT fTm) := by
  have hsplit : ∀ s ∈ store, s ∈ store.take 2 ∨ s ∈ store.drop 2 := by
    intro s hs
    rw [← List.take_append_drop 2 store] at hs
    exact List.mem_append.mp hs
  have hkeep : ∀ s ∈ store, validPayload s.payload ≠ none →
      s ∈ solcastStoreAfter store fetch now := by
    intro s hs hval
    unfold solcastStoreAfter
    rcases hsplit s hs with h | h
    · refine List.mem_append.mpr (Or.inl (List.mem_append.mpr (Or.inr ?_)))
      exact List.mem_filter.mpr ⟨h, by simp [Option.isSome_iff_ne_none, hval]⟩
    · exact List.mem_append.mpr (Or.inr h)
  refine ⟨hkeep, ?_, ?_⟩
  · intro s hs hnot
    constructor
    · by_contra hval
      exact hnot (hkeep s hs hval)
    · rcases hsplit s hs with h | h
      · exact h
      · exfalso
        apply hnot
        unfold solcastStoreAfter
        exact List.mem_append.mpr (Or.inr h)
  · intro s hs
    unfold pseStoreAfter
    cases hg : get_pse_prices pstore.head? pnow fT fTm with
    | error e => exact hs
    | ok o =>
      obtain ⟨res, f, per⟩ := o
      cases per with
      | none => exact hs
      | some pl => exact List.mem_cons_of_mem _ hs

/-- Witness for `c9_store_frame`: a valid forecast snapshot survives the
forecast call and a price snapshot survives the price call. -/
theorem c9_store_frame_witness :
    (⟨5, some [⟨0, 1, 1, 1⟩]⟩ : SolSnap) ∈
      solcastStoreAfter [⟨5, some [⟨0, 1, 1, 1⟩]⟩] none 100 ∧
    (⟨7, [⟨.iso 0, 1⟩]⟩ : PseSnap) ∈
      pseStoreAfter [⟨7, [⟨.iso 0, 1⟩]⟩] 0 .netError .netError := by
  have h := c9_store_frame [⟨5, some [⟨0, 1, 1, 1⟩]⟩] none 100
    [⟨7, [⟨.iso 0, 1⟩]⟩] 0 .netError .netError
  exact ⟨h.1 _ (by decide) (by decide), h.2.2 _ (by decide)⟩
